import Mathlib

/-!
Verification of the OpenVault retrieval and injection pipeline
(`src/retrieval/retrieve.js`) against its natural-language specification.

The JavaScript source is shallowly embedded: memory records and character
states become Lean structures, the JS object used as a character-state map
becomes an association list with exact-key lookup, the visibility filter,
exclusion passes and fallback logic become executable Lean functions, and
the two orchestrator entry points become total functions from an explicit
environment (settings, chat, store data, and the external collaborator
stages, each of which may throw) to a run result recording the arguments
passed to the injection sink, the status-observable transitions, and
whether the run ended normally or in an uncaught exception.
-/

set_option autoImplicit false

namespace OpenVault

/-- A memory record (the fields of the objects stored under `MEMORIES_KEY`
consumed by `retrieve.js`).  Optional fields model JS fields that may be
`undefined`. -/
structure Memory where
  id : String
  summary : String
  witnesses : Option (List String)
  characters_involved : Option (List String)
  is_secret : Bool
  message_ids : Option (List Nat)
  batch_id : Option String
  deriving DecidableEq

/-- Per-character state stored under `CHARACTERS_KEY`. -/
structure CharacterState where
  known_events : Option (List String)
  current_emotion : Option String
  emotion_from_messages : Option String
  deriving DecidableEq

/-- The store aggregate returned by `getOpenVaultData()`: the memory list
(`data[MEMORIES_KEY]`, possibly absent), the character-state map
(`data[CHARACTERS_KEY]`, a JS object keyed by character name, embedded as an
association list), and `data[LAST_BATCH_KEY]`. -/
structure OpenVaultData where
  memories : Option (List Memory)
  characters : List (String × CharacterState)
  lastBatchId : Option String

/-- Exact-key lookup in the character-state map, embedding the JS property
access `data[CHARACTERS_KEY]?.[charName]` (JS object property lookup is
case-sensitive). -/
def lookupChar (chars : List (String × CharacterState)) (name : String) :
    Option CharacterState :=
  match chars with
  | [] => none
  | (k, v) :: rest => if k = name then some v else lookupChar rest name

/-- The `knownEventIds` set built by both entry points: for each POV
character name, look the name up in the character-state map (exact key) and
add all its `known_events`.  Embedded as a list whose membership is the
set's membership. -/
def knownEventIds (chars : List (String × CharacterState)) :
    List String → List String
  | [] => []
  | c :: rest =>
    (match lookupChar chars c with
     | some cs => cs.known_events.getD []
     | none => []) ++ knownEventIds chars rest

/-- The POV visibility predicate used (identically) by both entry points:
the body of the `memories.filter(m => ...)` callback.  `povCharactersLower`
is `povCharacters.map(c => c.toLowerCase())`; a witness or involved name
matches when its lower-casing is in that list. -/
def memoryAccessible (chars : List (String × CharacterState))
    (pov : List String) (m : Memory) : Bool :=
  let povCharactersLower := pov.map String.toLower
  if (m.witnesses.getD []).any
      (fun w => decide (w.toLower ∈ povCharactersLower)) then true
  else if !m.is_secret && (m.characters_involved.getD []).any
      (fun c => decide (c.toLower ∈ povCharactersLower)) then true
  else if decide (m.id ∈ knownEventIds chars pov) then true
  else false

/-- `accessibleMemories` as computed in both entry points. -/
def accessibleMemories (chars : List (String × CharacterState))
    (pov : List String) (memories : List Memory) : List Memory :=
  memories.filter (memoryAccessible chars pov)

/-- The set of the last ten chat message indices,
`chat.map((m, idx) => idx).slice(-10)`, for a chat of length `n`. -/
def recentMessageIds (n : Nat) : List Nat :=
  (List.range n).drop (n - 10)

/-- The recency pass predicate of `nonRecentMemories`: keep a memory unless
it has a non-empty `message_ids` all of whose elements are recent. -/
def recencyKeep (n : Nat) (m : Memory) : Bool :=
  match m.message_ids with
  | none => true
  | some ids =>
    if ids.isEmpty then true
    else if ids.all (fun i => decide (i ∈ recentMessageIds n)) then false
    else true

/-- The batch pass predicate of `nonBatchMemories`: drop a memory when
`lastBatchId` is truthy (present and non-empty) and `m.batch_id` strictly
equals it. -/
def batchKeep (lastBatchId : Option String) (m : Memory) : Bool :=
  match lastBatchId with
  | none => true
  | some b => if b ≠ "" && m.batch_id == some b then false else true

/-- `nonRecentMemories` (update path): the recency pass over a list. -/
def nonRecentMemories (n : Nat) (l : List Memory) : List Memory :=
  l.filter (recencyKeep n)

/-- `nonBatchMemories` (update path): the batch pass over a list. -/
def nonBatchMemories (lastBatchId : Option String) (l : List Memory) :
    List Memory :=
  l.filter (batchKeep lastBatchId)

/-- `memoriesToUse` in the on-demand path: the accessible memories, falling
back to the full memory list when the visibility filter returned nothing
while memories exist. -/
def onDemandCandidates (chars : List (String × CharacterState))
    (pov : List String) (memories : List Memory) : List Memory :=
  let acc := accessibleMemories chars pov memories
  if acc = [] ∧ memories ≠ [] then memories else acc

/-- `memoriesToUse` in the automatic update path: visibility filter, then
recency pass, then batch pass, falling back to the full raw memory list
when the result is empty while memories exist. -/
def updateCandidates (chars : List (String × CharacterState))
    (lastBatchId : Option String) (n : Nat) (pov : List String)
    (memories : List Memory) : List Memory :=
  let acc := accessibleMemories chars pov memories
  let nonRecent := nonRecentMemories n acc
  let nonBatch := nonBatchMemories lastBatchId nonRecent
  if nonBatch = [] ∧ memories ≠ [] then memories else nonBatch

/-- A chat message as consumed here: its text and whether it is a system
message. -/
structure ChatMessage where
  mes : String
  is_system : Bool
  deriving DecidableEq

/-- The extension settings fields consumed by `retrieve.js`. -/
structure Settings where
  enabled : Bool
  automaticMode : Bool
  maxMemoriesPerRetrieval : Nat
  tokenBudget : Nat

/-- JS `a || b` for an optional string `a` and default `b` (`undefined` and
the empty string are falsy). -/
def jsOrStr (o : Option String) (d : String) : String :=
  match o with
  | none => d
  | some s => if s = "" then d else s

/-- JS `a || null` for an optional string `a`. -/
def jsOrNull (o : Option String) : Option String :=
  match o with
  | none => none
  | some s => if s = "" then none else some s

/-- The external collaborator stages called by the orchestrator.  Each may
throw (`Except.error`): `getActiveCharacters`, `getPOVContext`,
`selectRelevantMemories` (which may also resolve to a JS `null`, hence the
`Option`), `getRelationshipContext`, `formatContextForInjection`,
`safeSetExtensionPrompt` (the injection sink, returning its success flag)
and `showToast`.  `log` is a no-op and the status observable is modelled
as a recorded, non-throwing write. -/
structure Ext where
  getActiveCharacters : Except Unit (List String)
  getPOV : Except Unit (List String × Bool)
  select : List Memory → String → String → List String → Nat →
    Except Unit (Option (List Memory))
  relationship : OpenVaultData → String → List String → Except Unit String
  format : List Memory → String → String → Option String → String → Nat →
    Except Unit String
  setPrompt : String → Except Unit Bool
  toast : String → String → Except Unit Unit

/-- One invocation's environment: settings, the session context (`chat`,
`name1`, `name2`), the store data (or `null`), and the external stages. -/
structure Env where
  settings : Settings
  chat : List ChatMessage
  name1 : String
  name2 : String
  data : Option OpenVaultData
  ext : Ext

/-- How a run ends: a normal return value, or an exception the entry point
let escape to its caller. -/
inductive Outcome (α : Type) where
  | ok (a : α)
  | thrown
  deriving DecidableEq

/-- Observable summary of one run: every argument passed to the injection
sink `safeSetExtensionPrompt` (in order), every value written to the status
observable (in order), and the outcome. -/
structure RunResult (α : Type) where
  prompts : List String
  statuses : List String
  outcome : Outcome α

/-- The non-system chat text joined with newlines,
`chat.filter(m => !m.is_system).map(m => m.mes).join('\n')`. -/
def recentMessagesText (chat : List ChatMessage) : String :=
  String.intercalate "\n" ((chat.filter (fun m => !m.is_system)).map ChatMessage.mes)

/-- The `emotion` field of `emotionalInfo`:
`primaryCharState?.current_emotion || 'neutral'`. -/
def emotionOf (cs : Option CharacterState) : String :=
  jsOrStr (cs.bind CharacterState.current_emotion) "neutral"

/-- The `fromMessages` field of `emotionalInfo`:
`primaryCharState?.emotion_from_messages || null`. -/
def fromMessagesOf (cs : Option CharacterState) : Option String :=
  jsOrNull (cs.bind CharacterState.emotion_from_messages)

/-- Intermediate result of the `try` block body of
`retrieveAndInjectContext`: sink calls and status writes made inside the
block, and either the block's return value or the exception it raised. -/
structure TryOut (α : Type) where
  prompts : List String
  statuses : List String
  result : Except Unit α

/-- The body of the `try` block of `retrieveAndInjectContext` (everything
after `setStatus('retrieving')`), for given store data and (non-empty)
memory list. -/
def onDemandTry (env : Env) (d : OpenVaultData) (memories : List Memory) :
    TryOut (Option (List Memory × String)) :=
  match env.ext.getActiveCharacters with
  | .error e => ⟨[], [], .error e⟩
  | .ok activeCharacters =>
  match env.ext.getPOV with
  | .error e => ⟨[], [], .error e⟩
  | .ok (povCharacters, isGroupChat) =>
  let memoriesToUse := onDemandCandidates d.characters povCharacters memories
  if memoriesToUse = [] then ⟨[], ["ready"], .ok none⟩
  else
  let primaryCharacter := if isGroupChat then povCharacters.headD "" else env.name2
  let recentMessages := recentMessagesText env.chat
  match env.ext.select memoriesToUse recentMessages primaryCharacter
      activeCharacters env.settings.maxMemoriesPerRetrieval with
  | .error e => ⟨[], [], .error e⟩
  | .ok relevantOpt =>
  let relevantMemories := relevantOpt.getD []
  if relevantMemories = [] then ⟨[], ["ready"], .ok none⟩
  else
  match env.ext.relationship d primaryCharacter activeCharacters with
  | .error e => ⟨[], [], .error e⟩
  | .ok relationshipContext =>
  let primaryCharState := lookupChar d.characters primaryCharacter
  let headerName := if isGroupChat then primaryCharacter else "Scene"
  match env.ext.format relevantMemories relationshipContext
      (emotionOf primaryCharState) (fromMessagesOf primaryCharState)
      headerName env.settings.tokenBudget with
  | .error e => ⟨[], [], .error e⟩
  | .ok formattedContext =>
  if formattedContext = "" then
    ⟨[], ["ready"], .ok (some (relevantMemories, formattedContext))⟩
  else
    match env.ext.setPrompt formattedContext with
    | .error e => ⟨[formattedContext], [], .error e⟩
    | .ok _ =>
      match env.ext.toast "success"
          ("Retrieved " ++ toString relevantMemories.length ++ " relevant memories") with
      | .error e => ⟨[formattedContext], [], .error e⟩
      | .ok _ =>
        ⟨[formattedContext], ["ready"], .ok (some (relevantMemories, formattedContext))⟩

/-- The on-demand entry point `retrieveAndInjectContext`.  The guard
checks happen before `setStatus('retrieving')`; the `catch` turns any
exception of the `try` body into `setStatus('error')` and a `null`
return. -/
def retrieveAndInjectContext (env : Env) :
    RunResult (Option (List Memory × String)) :=
  if env.settings.enabled = false then ⟨[], [], .ok none⟩
  else if env.chat = [] then ⟨[], [], .ok none⟩
  else
    match env.data with
    | none => ⟨[], [], .ok none⟩
    | some d =>
      let memories := d.memories.getD []
      if memories = [] then ⟨[], [], .ok none⟩
      else
        let t := onDemandTry env d memories
        match t.result with
        | .ok v => ⟨t.prompts, "retrieving" :: t.statuses, .ok v⟩
        | .error _ => ⟨t.prompts, "retrieving" :: (t.statuses ++ ["error"]), .ok none⟩

/-- `safeSetExtensionPrompt('')` followed by `return`, used by every
short-circuit exit of `updateInjection`.  The sink call itself may throw,
in which case the exception escapes (no `try` in the update path). -/
def clearPrompt (env : Env) : RunResult Unit :=
  match env.ext.setPrompt "" with
  | .ok _ => ⟨[""], [], .ok ()⟩
  | .error _ => ⟨[""], [], .thrown⟩

/-- The automatic-mode entry point `updateInjection`.  It has no
`try`/`catch`: any exception from an external stage escapes as
`Outcome.thrown`. -/
def updateInjection (env : Env) (pendingUserMessage : String) : RunResult Unit :=
  if env.settings.enabled = false ∨ env.settings.automaticMode = false then
    clearPrompt env
  else if env.chat = [] then clearPrompt env
  else
  match env.data with
  | none => clearPrompt env
  | some d =>
  let memories := d.memories.getD []
  if memories = [] then clearPrompt env
  else
  match env.ext.getActiveCharacters with
  | .error _ => ⟨[], [], .thrown⟩
  | .ok activeCharacters =>
  match env.ext.getPOV with
  | .error _ => ⟨[], [], .thrown⟩
  | .ok (povCharacters, isGroupChat) =>
  let memoriesToUse :=
    updateCandidates d.characters d.lastBatchId env.chat.length povCharacters memories
  if memoriesToUse = [] then clearPrompt env
  else
  let primaryCharacter := if isGroupChat then povCharacters.headD "" else env.name2
  let baseText := recentMessagesText env.chat
  let recentMessages :=
    if pendingUserMessage = "" then baseText
    else baseText ++ "\n\n[User is about to say]: " ++ pendingUserMessage
  match env.ext.select memoriesToUse recentMessages primaryCharacter
      activeCharacters env.settings.maxMemoriesPerRetrieval with
  | .error _ => ⟨[], [], .thrown⟩
  | .ok relevantOpt =>
  let relevantMemories := relevantOpt.getD []
  if relevantMemories = [] then clearPrompt env
  else
  match env.ext.relationship d primaryCharacter activeCharacters with
  | .error _ => ⟨[], [], .thrown⟩
  | .ok relationshipContext =>
  let primaryCharState := lookupChar d.characters primaryCharacter
  let headerName := if isGroupChat then primaryCharacter else "Scene"
  match env.ext.format relevantMemories relationshipContext
      (emotionOf primaryCharState) (fromMessagesOf primaryCharState)
      headerName env.settings.tokenBudget with
  | .error _ => ⟨[], [], .thrown⟩
  | .ok formattedContext =>
  if formattedContext = "" then ⟨[], [], .ok ()⟩
  else
    match env.ext.setPrompt formattedContext with
    | .error _ => ⟨[formattedContext], [], .thrown⟩
    | .ok _ => ⟨[formattedContext], [], .ok ()⟩

/-! ## Concrete fixtures -/

/-- Concrete fixture: a memory witnessed by "Alice" extracted from message
index 0. -/
def mAliceRecent : Memory := ⟨"m1", "w", some ["Alice"], some [], false, some [0], none⟩

/-- Concrete fixture: a secret memory visible to nobody. -/
def mHidden : Memory := ⟨"m2", "h", some [], some [], true, none, none⟩

/-- Concrete fixture: a store holding both memories, no character states,
no last batch. -/
def dataFix : OpenVaultData := ⟨some [mAliceRecent, mHidden], [], none⟩

/-- Concrete fixture: enabled settings with automatic mode on. -/
def settingsOn : Settings := ⟨true, true, 5, 1000⟩

/-- Concrete fixture: a one-message chat. -/
def chatFix : List ChatMessage := [⟨"hello", false⟩]

/-- Concrete fixture: collaborators that never throw; the selector
constantly returns one memory, the formatter returns "CTX". -/
def extOk : Ext where
  getActiveCharacters := .ok ["Alice"]
  getPOV := .ok (["Alice"], true)
  select := fun _ _ _ _ _ => .ok (some [mAliceRecent])
  relationship := fun _ _ _ => .ok "rel"
  format := fun _ _ _ _ _ _ => .ok "CTX"
  setPrompt := fun _ => .ok true
  toast := fun _ _ => .ok ()

/-- Concrete fixture: a full working environment. -/
def envBase : Env := ⟨settingsOn, chatFix, "User", "Alice", some dataFix, extOk⟩

/-- Concrete fixture: the same environment with the extension disabled. -/
def envDisabled : Env := { envBase with settings := ⟨false, false, 5, 1000⟩ }

/-- Concrete fixture: environment whose relevance selector throws. -/
def envSelThrow : Env :=
  { envBase with ext := { extOk with select := fun _ _ _ _ _ => .error () } }

/-- Concrete fixture: environment whose selector resolves to `null`. -/
def envSelNone : Env :=
  { envBase with ext := { extOk with select := fun _ _ _ _ _ => .ok none } }

/-- Concrete fixture: environment whose formatter returns the empty
string. -/
def envFmtEmpty : Env :=
  { envBase with ext := { extOk with format := fun _ _ _ _ _ _ => .ok "" } }

/-! ## Helper lemmas -/

theorem mem_knownEventIds (chars : List (String × CharacterState))
    (pov : List String) (x : String) :
    x ∈ knownEventIds chars pov ↔
      ∃ c ∈ pov, ∃ cs, lookupChar chars c = some cs ∧
        x ∈ cs.known_events.getD [] := by
  induction pov with
  | nil => simp [knownEventIds]
  | cons c rest ih =>
    simp only [knownEventIds, List.mem_append, ih, List.mem_cons]
    constructor
    · rintro (h | ⟨c', hc', cs, hcs, hx⟩)
      · cases hl : lookupChar chars c with
        | none => rw [hl] at h; simp at h
        | some cs => exact ⟨c, Or.inl rfl, cs, hl, by rwa [hl] at h⟩
      · exact ⟨c', Or.inr hc', cs, hcs, hx⟩
    · rintro ⟨c', hc' | hc', cs, hcs, hx⟩
      · subst hc'
        rw [hcs]
        exact Or.inl hx
      · exact Or.inr ⟨c', hc', cs, hcs, hx⟩

theorem memoryAccessible_eq_true (chars : List (String × CharacterState))
    (pov : List String) (m : Memory) :
    memoryAccessible chars pov m = true ↔
      ((∃ w ∈ m.witnesses.getD [], ∃ p ∈ pov, p.toLower = w.toLower) ∨
       (m.is_secret = false ∧
         ∃ c ∈ m.characters_involved.getD [], ∃ p ∈ pov, p.toLower = c.toLower) ∨
       m.id ∈ knownEventIds chars pov) := by
  simp only [memoryAccessible]
  split_ifs with h1 h2 h3 <;>
    simp_all [List.any_eq_true, List.mem_map, Bool.and_eq_true,
      Bool.not_eq_true', decide_eq_true_eq]

theorem knownEventIds_nil_chars (pov : List String) :
    knownEventIds [] pov = [] := by
  induction pov with
  | nil => rfl
  | cons c rest ih => simp [knownEventIds, lookupChar, ih]

theorem memoryAccessible_fixture_recent :
    memoryAccessible [] ["Alice"] mAliceRecent = true := by
  simp [memoryAccessible, mAliceRecent]

theorem memoryAccessible_fixture_hidden :
    memoryAccessible [] ["Alice"] mHidden = false := by
  simp [memoryAccessible, mHidden, knownEventIds_nil_chars]

theorem accessible_fixture :
    accessibleMemories [] ["Alice"] [mAliceRecent, mHidden] = [mAliceRecent] := by
  simp [accessibleMemories, List.filter,
    memoryAccessible_fixture_recent, memoryAccessible_fixture_hidden]

theorem accessible_fixture_hidden_only :
    accessibleMemories [] ["Alice"] [mHidden] = [] := by
  simp [accessibleMemories, List.filter, memoryAccessible_fixture_hidden]

theorem recencyKeep_eq_false (n : Nat) (m : Memory) :
    recencyKeep n m = false ↔
      ∃ ids, m.message_ids = some ids ∧ ids ≠ [] ∧
        ∀ i ∈ ids, i ∈ recentMessageIds n := by
  cases h : m.message_ids with
  | none => simp [recencyKeep, h]
  | some ids =>
    simp only [recencyKeep, h]
    split_ifs with h1 h2 <;>
      simp_all [List.isEmpty_iff, List.all_eq_true, decide_eq_true_eq]

theorem batchKeep_eq_false (lb : Option String) (m : Memory) :
    batchKeep lb m = false ↔
      ∃ b, lb = some b ∧ b ≠ "" ∧ m.batch_id = some b := by
  cases lb with
  | none => simp [batchKeep]
  | some b =>
    simp only [batchKeep]
    split_ifs with h <;>
      simp_all [Bool.and_eq_true, decide_eq_true_eq, beq_iff_eq]

theorem clearPrompt_prompts (env : Env) : (clearPrompt env).prompts = [""] := by
  simp only [clearPrompt]
  cases env.ext.setPrompt "" <;> rfl

theorem clearPrompt_ok (env : Env) (h : ∃ v, env.ext.setPrompt "" = .ok v) :
    (clearPrompt env).outcome = Outcome.ok () := by
  obtain ⟨v, hv⟩ := h
  simp [clearPrompt, hv]

theorem updateCandidates_ne_nil (chars : List (String × CharacterState))
    (lastBatchId : Option String) (n : Nat) (pov : List String)
    (memories : List Memory) (h : memories ≠ []) :
    updateCandidates chars lastBatchId n pov memories ≠ [] := by
  simp only [updateCandidates]
  split_ifs with hc
  · exact h
  · intro hnb
    exact hc ⟨hnb, h⟩

theorem onDemandCandidates_ne_nil (chars : List (String × CharacterState))
    (pov : List String) (memories : List Memory) (h : memories ≠ []) :
    onDemandCandidates chars pov memories ≠ [] := by
  simp only [onDemandCandidates]
  split_ifs with hc
  · exact h
  · intro hacc
    exact hc ⟨hacc, h⟩

theorem updateCandidates_fixture :
    updateCandidates [] none 1 ["Alice"] [mAliceRecent, mHidden] =
      [mAliceRecent, mHidden] := by
  simp only [updateCandidates, accessible_fixture]
  decide

theorem onDemandCandidates_fixture :
    onDemandCandidates [] ["Alice"] [mAliceRecent, mHidden] = [mAliceRecent] := by
  simp only [onDemandCandidates, accessible_fixture]
  decide

/-! ## Claim theorems -/

/-- C1: for every memory, POV character sequence and character-state map,
the visibility filter used by both entry points accepts the memory iff some
POV name matches (case-insensitively) a witness entry, or the memory is not
secret and some POV name matches (case-insensitively) an involved-character
entry, or the memory's id is in the union of the POV characters' known
event sets; the iff makes each disjunct individually sufficient. -/
theorem visibility_filter_characterization
    (chars : List (String × CharacterState)) (pov : List String)
    (memories : List Memory) (m : Memory) :
    m ∈ accessibleMemories chars pov memories ↔
      m ∈ memories ∧
        ((∃ w ∈ m.witnesses.getD [], ∃ p ∈ pov, p.toLower = w.toLower) ∨
         (m.is_secret = false ∧
           ∃ c ∈ m.characters_involved.getD [], ∃ p ∈ pov, p.toLower = c.toLower) ∨
         m.id ∈ knownEventIds chars pov) := by
  rw [accessibleMemories, List.mem_filter, memoryAccessible_eq_true]

/-- C2: a memory with `is_secret = true` whose id is in no POV character's
known events and none of whose witnesses matches a POV name is rejected by
the visibility filter — with no assumption on `characters_involved`, so
involvement alone never grants visibility to a secret memory. -/
theorem secret_involvement_never_grants
    (chars : List (String × CharacterState)) (pov : List String) (m : Memory)
    (hsecret : m.is_secret = true)
    (hknown : m.id ∉ knownEventIds chars pov)
    (hwit : ∀ w ∈ m.witnesses.getD [], ∀ p ∈ pov, p.toLower ≠ w.toLower) :
    memoryAccessible chars pov m = false ∧
      ∀ memories : List Memory, m ∉ accessibleMemories chars pov memories := by
  have hacc : memoryAccessible chars pov m = false := by
    have hne : ¬ memoryAccessible chars pov m = true := by
      rw [memoryAccessible_eq_true]
      rintro (⟨w, hw, p, hp, he⟩ | ⟨hs, -⟩ | hk)
      · exact hwit w hw p hp he
      · rw [hsecret] at hs; exact Bool.noConfusion hs
      · exact hknown hk
    simpa using hne
  refine ⟨hacc, fun memories hmem => ?_⟩
  rw [accessibleMemories, List.mem_filter] at hmem
  rw [hacc] at hmem
  exact Bool.noConfusion hmem.2

/-- Witness for C2: a concrete secret memory involving the POV character
"Alice" (and only involving her) is rejected. -/
theorem secret_involvement_never_grants_witness :
    memoryAccessible [] ["Alice"]
      ⟨"m1", "s", some [], some ["Alice"], true, none, none⟩ = false :=
  (secret_involvement_never_grants [] ["Alice"]
    ⟨"m1", "s", some [], some ["Alice"], true, none, none⟩
    rfl (by decide) (by decide)).1

/-- C10: the known-events union is built by exact (case-sensitive) key
lookup of each POV name in the character-state map; a store whose only
binding is under a key different from the POV name — in particular a key
differing only in letter case — contributes no known events. -/
theorem knownEvents_lookup_case_sensitive
    (chars : List (String × CharacterState)) (pov : List String) (x : String) :
    (x ∈ knownEventIds chars pov ↔
      ∃ c ∈ pov, ∃ cs, lookupChar chars c = some cs ∧
        x ∈ cs.known_events.getD []) ∧
    ∀ (c k : String) (cs : CharacterState), c ≠ k →
      knownEventIds [(k, cs)] [c] = [] := by
  refine ⟨mem_knownEventIds chars pov x, ?_⟩
  intro c k cs hck
  simp [knownEventIds, lookupChar, Ne.symm hck]

/-- Witness for C10: the POV name "Alice" gains nothing from a state keyed
"alice", although the two names differ only in letter case. -/
theorem knownEvents_lookup_case_sensitive_witness :
    knownEventIds [("alice", ⟨some ["m1"], none, none⟩)] ["Alice"] = [] :=
  (knownEvents_lookup_case_sensitive [] [] "x").2 "Alice" "alice"
    ⟨some ["m1"], none, none⟩ (by decide)

/-- Counterexample for C3: with one accessible memory emptied by the
recency pass and one inaccessible memory present, the update path's
candidate set is the full raw memory list, not the (non-empty) accessible
set it was filtered from — the fallback bypasses visibility instead of
reverting each exclusion pass to its own input. -/
theorem update_fallback_bypasses_visibility :
    accessibleMemories [] ["Alice"] [mAliceRecent, mHidden] = [mAliceRecent] ∧
    nonBatchMemories none (nonRecentMemories 1
      (accessibleMemories [] ["Alice"] [mAliceRecent, mHidden])) = [] ∧
    updateCandidates [] none 1 ["Alice"] [mAliceRecent, mHidden] =
      [mAliceRecent, mHidden] ∧
    updateCandidates [] none 1 ["Alice"] [mAliceRecent, mHidden] ≠
      accessibleMemories [] ["Alice"] [mAliceRecent, mHidden] := by
  refine ⟨accessible_fixture, ?_, ?_, ?_⟩
  · rw [accessible_fixture]; decide
  · simp only [updateCandidates, accessible_fixture]; decide
  · simp only [updateCandidates, accessible_fixture]; decide

/-- C3 amended: in the automatic update path, whenever the visibility
filter produces a non-empty accessible set and the recency and batch
exclusion passes empty it, the candidate set handed to the relevance
selector equals the full raw memory list (bypassing visibility), not the
accessible set. -/
theorem update_exclusion_fallback_raw
    (chars : List (String × CharacterState)) (lastBatchId : Option String)
    (n : Nat) (pov : List String) (memories : List Memory)
    (hacc : accessibleMemories chars pov memories ≠ [])
    (hexcl : nonBatchMemories lastBatchId (nonRecentMemories n
      (accessibleMemories chars pov memories)) = []) :
    updateCandidates chars lastBatchId n pov memories = memories := by
  have hne : memories ≠ [] := by
    intro h
    subst h
    exact hacc rfl
  simp only [updateCandidates]
  rw [if_pos ⟨hexcl, hne⟩]

/-- Witness for C3 (amended): the fixture store evaluates to the full raw
list. -/
theorem update_exclusion_fallback_raw_witness :
    updateCandidates [] none 1 ["Alice"] [mAliceRecent, mHidden] =
      [mAliceRecent, mHidden] :=
  update_exclusion_fallback_raw [] none 1 ["Alice"] [mAliceRecent, mHidden]
    (by rw [accessible_fixture]; decide)
    (by rw [accessible_fixture]; decide)

/-- C4: in the on-demand path, whenever the memory list is non-empty and
the visibility filter yields the empty set, the candidate set passed
onward is the full input memory list. -/
theorem ondemand_visibility_fallback
    (chars : List (String × CharacterState)) (pov : List String)
    (memories : List Memory)
    (hne : memories ≠ [])
    (hacc : accessibleMemories chars pov memories = []) :
    onDemandCandidates chars pov memories = memories := by
  simp only [onDemandCandidates]
  rw [if_pos ⟨hacc, hne⟩]

/-- Witness for C4: a store holding only a memory hidden from "Alice"
falls back to the full list. -/
theorem ondemand_visibility_fallback_witness :
    onDemandCandidates [] ["Alice"] [mHidden] = [mHidden] :=
  ondemand_visibility_fallback [] ["Alice"] [mHidden] (by decide)
    accessible_fixture_hidden_only

/-- C5: a visibility-accepted memory is removed by the two exclusion
passes of the automatic update path iff it has a present, non-empty
`message_ids` all of whose elements lie among the last ten chat message
indices, or `lastBatchId` is set (present and non-empty) and the memory's
`batch_id` equals it. -/
theorem exclusion_removes_iff (n : Nat) (lastBatchId : Option String)
    (acc : List Memory) (m : Memory) (hm : m ∈ acc) :
    m ∉ nonBatchMemories lastBatchId (nonRecentMemories n acc) ↔
      ((∃ ids, m.message_ids = some ids ∧ ids ≠ [] ∧
          ∀ i ∈ ids, i ∈ recentMessageIds n) ∨
       (∃ b, lastBatchId = some b ∧ b ≠ "" ∧ m.batch_id = some b)) := by
  have hmem : m ∈ nonBatchMemories lastBatchId (nonRecentMemories n acc) ↔
      (batchKeep lastBatchId m = true ∧ recencyKeep n m = true) := by
    simp [nonBatchMemories, nonRecentMemories, List.mem_filter, hm]
  rw [hmem, ← recencyKeep_eq_false, ← batchKeep_eq_false]
  constructor
  · intro hnot
    cases hr : recencyKeep n m with
    | false => exact Or.inl rfl
    | true =>
      cases hb : batchKeep lastBatchId m with
      | false => exact Or.inr rfl
      | true => exact absurd ⟨hb, hr⟩ hnot
  · rintro (hr | hb) ⟨hb', hr'⟩
    · rw [hr] at hr'; exact Bool.noConfusion hr'
    · rw [hb] at hb'; exact Bool.noConfusion hb'

/-- Witness for C5: the fixture memory from message 0, in a chat of length
one, is removed, and the iff instantiates accordingly. -/
theorem exclusion_removes_iff_witness :
    mAliceRecent ∉ nonBatchMemories none (nonRecentMemories 1 [mAliceRecent]) ↔
      ((∃ ids, mAliceRecent.message_ids = some ids ∧ ids ≠ [] ∧
          ∀ i ∈ ids, i ∈ recentMessageIds 1) ∨
       (∃ b, (none : Option String) = some b ∧ b ≠ "" ∧
          mAliceRecent.batch_id = some b)) :=
  exclusion_removes_iff 1 none [mAliceRecent] mAliceRecent (by simp)

/-- C9: on every short-circuit exit of the on-demand retrieval path —
disabled, empty chat, unavailable store, empty memory set, empty candidate
set, and a null or empty selector result — the call returns null and the
injection sink is never invoked (no prompt is ever passed to it). -/
theorem ondemand_shortcircuit_no_injection (env : Env) :
    (env.settings.enabled = false →
      retrieveAndInjectContext env = ⟨[], [], .ok none⟩) ∧
    (env.chat = [] → retrieveAndInjectContext env = ⟨[], [], .ok none⟩) ∧
    (env.data = none → retrieveAndInjectContext env = ⟨[], [], .ok none⟩) ∧
    (∀ d, env.data = some d → d.memories.getD [] = [] →
      retrieveAndInjectContext env = ⟨[], [], .ok none⟩) ∧
    (∀ d pov g, env.data = some d → env.ext.getPOV = .ok (pov, g) →
      onDemandCandidates d.characters pov (d.memories.getD []) = [] →
      (retrieveAndInjectContext env).outcome = .ok none ∧
      (retrieveAndInjectContext env).prompts = []) ∧
    ((∀ a b c dd e, env.ext.select a b c dd e = .ok none) →
      (retrieveAndInjectContext env).outcome = .ok none ∧
      (retrieveAndInjectContext env).prompts = []) ∧
    ((∀ a b c dd e, env.ext.select a b c dd e = .ok (some [])) →
      (retrieveAndInjectContext env).outcome = .ok none ∧
      (retrieveAndInjectContext env).prompts = []) := by
  refine ⟨?_, ?_, ?_, ?_, ?_, ?_, ?_⟩
  · intro h
    simp [retrieveAndInjectContext, h]
  · intro h
    simp [retrieveAndInjectContext, h]
  · intro h
    simp [retrieveAndInjectContext, h]
  · intro d hd hm
    simp [retrieveAndInjectContext, hd, hm]
  · intro d pov g hd hp hcand
    by_cases h1 : env.settings.enabled = false
    · simp [retrieveAndInjectContext, h1]
    by_cases h2 : env.chat = []
    · simp [retrieveAndInjectContext, h2]
    by_cases hm : d.memories.getD [] = []
    · simp [retrieveAndInjectContext, hd, hm]
    cases hga : env.ext.getActiveCharacters with
    | error e =>
      simp [retrieveAndInjectContext, onDemandTry, hd, h1, h2, hm, hga]
    | ok ac =>
      simp [retrieveAndInjectContext, onDemandTry, hd, h1, h2, hm, hga, hp, hcand]
  · intro hsel
    by_cases h1 : env.settings.enabled = false
    · simp [retrieveAndInjectContext, h1]
    by_cases h2 : env.chat = []
    · simp [retrieveAndInjectContext, h2]
    cases hd : env.data with
    | none => simp [retrieveAndInjectContext, hd, h1, h2]
    | some d =>
      by_cases hm : d.memories.getD [] = []
      · simp [retrieveAndInjectContext, hd, hm]
      cases hga : env.ext.getActiveCharacters with
      | error e =>
        simp [retrieveAndInjectContext, onDemandTry, hd, h1, h2, hm, hga]
      | ok ac =>
        cases hp : env.ext.getPOV with
        | error e =>
          simp [retrieveAndInjectContext, onDemandTry, hd, h1, h2, hm, hga, hp]
        | ok pg =>
          obtain ⟨pov, g⟩ := pg
          by_cases hcand :
              onDemandCandidates d.characters pov (d.memories.getD []) = []
          · simp [retrieveAndInjectContext, onDemandTry, hd, h1, h2, hm, hga,
              hp, hcand]
          · simp [retrieveAndInjectContext, onDemandTry, hd, h1, h2, hm, hga,
              hp, hcand, hsel]
  · intro hsel
    by_cases h1 : env.settings.enabled = false
    · simp [retrieveAndInjectContext, h1]
    by_cases h2 : env.chat = []
    · simp [retrieveAndInjectContext, h2]
    cases hd : env.data with
    | none => simp [retrieveAndInjectContext, hd, h1, h2]
    | some d =>
      by_cases hm : d.memories.getD [] = []
      · simp [retrieveAndInjectContext, hd, hm]
      cases hga : env.ext.getActiveCharacters with
      | error e =>
        simp [retrieveAndInjectContext, onDemandTry, hd, h1, h2, hm, hga]
      | ok ac =>
        cases hp : env.ext.getPOV with
        | error e =>
          simp [retrieveAndInjectContext, onDemandTry, hd, h1, h2, hm, hga, hp]
        | ok pg =>
          obtain ⟨pov, g⟩ := pg
          by_cases hcand :
              onDemandCandidates d.characters pov (d.memories.getD []) = []
          · simp [retrieveAndInjectContext, onDemandTry, hd, h1, h2, hm, hga,
              hp, hcand]
          · simp [retrieveAndInjectContext, onDemandTry, hd, h1, h2, hm, hga,
              hp, hcand, hsel]

/-- Witness for C9: the disabled fixture returns null with no sink call,
and the selector-null fixture returns null with no sink call. -/
theorem ondemand_shortcircuit_no_injection_witness :
    retrieveAndInjectContext envDisabled = ⟨[], [], .ok none⟩ ∧
    (retrieveAndInjectContext envSelNone).outcome = .ok none ∧
    (retrieveAndInjectContext envSelNone).prompts = [] :=
  ⟨(ondemand_shortcircuit_no_injection envDisabled).1 rfl,
   (ondemand_shortcircuit_no_injection envSelNone).2.2.2.2.2.1
     (fun _ _ _ _ _ => rfl)⟩

/-- Counterexample for C6: when every stage succeeds but the formatter
returns the empty string, the automatic update path does not invoke the
injection sink at all — in particular it is not invoked with the empty
string, so a previously injected context is left in place. -/
theorem update_formatter_empty_no_clear :
    (updateInjection envFmtEmpty "").prompts = [] ∧
    (updateInjection envFmtEmpty "").prompts ≠ [""] := by
  have h : updateInjection envFmtEmpty "" = ⟨[], [], .ok ()⟩ := by
    simp [updateInjection, envFmtEmpty, envBase, settingsOn, chatFix, dataFix,
      extOk, updateCandidates_fixture]
  rw [h]
  exact ⟨rfl, by simp⟩

/-- C6 amended: on every short-circuit exit of the automatic update path
except an empty formatter output — disabled or non-automatic settings,
empty chat, unavailable store, empty memory set, empty candidate set
(subsumed by the empty memory set), and a null or empty selector result —
the injection sink is invoked with the empty string; when the formatter
returns the empty string, the sink is not invoked at all and a previous
injection is left unchanged. -/
theorem update_shortcircuit_clears (env : Env) (pending : String) :
    ((env.settings.enabled = false ∨ env.settings.automaticMode = false) →
      (updateInjection env pending).prompts = [""]) ∧
    (env.chat = [] → (updateInjection env pending).prompts = [""]) ∧
    (env.data = none → (updateInjection env pending).prompts = [""]) ∧
    (∀ d, env.data = some d → d.memories.getD [] = [] →
      (updateInjection env pending).prompts = [""]) ∧
    ((∃ ac, env.ext.getActiveCharacters = .ok ac) →
     (∃ pc, env.ext.getPOV = .ok pc) →
     (∀ a b c dd e, env.ext.select a b c dd e = .ok none) →
      (updateInjection env pending).prompts = [""]) ∧
    ((∃ ac, env.ext.getActiveCharacters = .ok ac) →
     (∃ pc, env.ext.getPOV = .ok pc) →
     (∀ a b c dd e, env.ext.select a b c dd e = .ok (some [])) →
      (updateInjection env pending).prompts = [""]) ∧
    (∀ d (rel : List Memory),
     env.settings.enabled = true → env.settings.automaticMode = true →
     env.chat ≠ [] → env.data = some d → d.memories.getD [] ≠ [] →
     rel ≠ [] →
     (∃ ac, env.ext.getActiveCharacters = .ok ac) →
     (∃ pc, env.ext.getPOV = .ok pc) →
     (∀ a b c dd e, env.ext.select a b c dd e = .ok (some rel)) →
     (∀ dd p a, ∃ s, env.ext.relationship dd p a = .ok s) →
     (∀ a b c dd e f, env.ext.format a b c dd e f = .ok "") →
      (updateInjection env pending).prompts = []) := by
  have hclear : ∀ r : RunResult Unit, r = clearPrompt env → r.prompts = [""] :=
    fun r hr => hr ▸ clearPrompt_prompts env
  refine ⟨?_, ?_, ?_, ?_, ?_, ?_, ?_⟩
  · intro h
    exact hclear _ (by simp [updateInjection, h])
  · intro h
    exact hclear _ (by simp [updateInjection, h])
  · intro h
    exact hclear _ (by simp [updateInjection, h])
  · intro d hd hm
    exact hclear _ (by simp [updateInjection, hd, hm])
  · rintro ⟨ac, hga⟩ ⟨⟨pov, g⟩, hp⟩ hsel
    by_cases h1 : env.settings.enabled = false ∨ env.settings.automaticMode = false
    · exact hclear _ (by simp [updateInjection, h1])
    by_cases h2 : env.chat = []
    · exact hclear _ (by simp [updateInjection, h2])
    cases hd : env.data with
    | none => exact hclear _ (by simp [updateInjection, hd, h1, h2])
    | some d =>
      by_cases hm : d.memories.getD [] = []
      · exact hclear _ (by simp [updateInjection, hd, hm])
      by_cases hcand : updateCandidates d.characters d.lastBatchId
          env.chat.length pov (d.memories.getD []) = []
      · exact hclear _
          (by simp [updateInjection, hd, h1, h2, hm, hga, hp, hcand])
      · exact hclear _
          (by simp [updateInjection, hd, h1, h2, hm, hga, hp, hcand, hsel])
  · rintro ⟨ac, hga⟩ ⟨⟨pov, g⟩, hp⟩ hsel
    by_cases h1 : env.settings.enabled = false ∨ env.settings.automaticMode = false
    · exact hclear _ (by simp [updateInjection, h1])
    by_cases h2 : env.chat = []
    · exact hclear _ (by simp [updateInjection, h2])
    cases hd : env.data with
    | none => exact hclear _ (by simp [updateInjection, hd, h1, h2])
    | some d =>
      by_cases hm : d.memories.getD [] = []
      · exact hclear _ (by simp [updateInjection, hd, hm])
      by_cases hcand : updateCandidates d.characters d.lastBatchId
          env.chat.length pov (d.memories.getD []) = []
      · exact hclear _
          (by simp [updateInjection, hd, h1, h2, hm, hga, hp, hcand])
      · exact hclear _
          (by simp [updateInjection, hd, h1, h2, hm, hga, hp, hcand, hsel])
  · rintro d rel hen hauto hchat hd hm hrel ⟨ac, hga⟩ ⟨⟨pov, g⟩, hp⟩ hsel hrelat hfmt
    have h1 : ¬(env.settings.enabled = false ∨ env.settings.automaticMode = false) := by
      rintro (h | h)
      · rw [hen] at h; exact Bool.noConfusion h
      · rw [hauto] at h; exact Bool.noConfusion h
    have hcand : updateCandidates d.characters d.lastBatchId
        env.chat.length pov (d.memories.getD []) ≠ [] :=
      updateCandidates_ne_nil _ _ _ _ _ hm
    simp [updateInjection, hd, h1, hchat, hm, hga, hp, hcand, hsel, hrel, hfmt]
    cases env.ext.relationship d (if g = true then pov.head?.getD "" else env.name2) ac <;>
      rfl

/-- Witness for C6 (amended): the disabled fixture clears the injection
with the empty string; the empty-formatter fixture makes no sink call. -/
theorem update_shortcircuit_clears_witness :
    (updateInjection envDisabled "").prompts = [""] ∧
    (updateInjection envFmtEmpty "").prompts = [] :=
  ⟨(update_shortcircuit_clears envDisabled "").1 (Or.inl rfl),
   (update_shortcircuit_clears envFmtEmpty "").2.2.2.2.2.2 dataFix [mAliceRecent]
     rfl rfl (by decide) rfl (by decide) (by decide)
     ⟨["Alice"], rfl⟩ ⟨(["Alice"], true), rfl⟩
     (fun _ _ _ _ _ => rfl) (fun _ _ _ => ⟨"rel", rfl⟩)
     (fun _ _ _ _ _ _ => rfl)⟩

/-- C7: any exception raised by a stage inside the `try` block of the
on-demand path (relevance selection, relationship lookup, formatting,
injection, toast) is caught: the status observable is set to "error" and
the call resolves to null instead of propagating. -/
theorem ondemand_catches_exceptions (env : Env) (d : OpenVaultData) (e : Unit)
    (he : env.settings.enabled = true) (hc : env.chat ≠ [])
    (hd : env.data = some d) (hm : d.memories.getD [] ≠ [])
    (hthrow : (onDemandTry env d (d.memories.getD [])).result = .error e) :
    (retrieveAndInjectContext env).outcome = .ok none ∧
    "error" ∈ (retrieveAndInjectContext env).statuses := by
  have h1 : ¬ env.settings.enabled = false := by
    rw [he]
    exact fun h => Bool.noConfusion h
  simp [retrieveAndInjectContext, hd, h1, hc, hm, hthrow]

/-- Witness for C7: the fixture whose selector throws is caught, reports
"error" and returns null. -/
theorem ondemand_catches_exceptions_witness :
    (retrieveAndInjectContext envSelThrow).outcome = .ok none ∧
    "error" ∈ (retrieveAndInjectContext envSelThrow).statuses :=
  ondemand_catches_exceptions envSelThrow dataFix () rfl (by decide) rfl
    (by decide)
    (by simp [onDemandTry, envSelThrow, envBase, extOk, dataFix,
      onDemandCandidates_fixture])

/-- Counterexample for C8: in the fixture whose relevance selector throws,
the automatic update entry point propagates the exception to its caller —
it does not terminate in an injection or a clean no-op. -/
theorem update_throws_counterexample :
    (updateInjection envSelThrow "").outcome = Outcome.thrown := by
  simp [updateInjection, envSelThrow, envBase, extOk, settingsOn, chatFix,
    dataFix, updateCandidates_fixture]

/-- C8 amended: the on-demand entry point never lets an exception escape,
for any environment; the automatic update entry point never lets one
escape provided none of its external stages throws (by the counterexample
it propagates a stage's exception, having no catch of its own). -/
theorem entrypoints_no_uncaught (env : Env) (pending : String) :
    (retrieveAndInjectContext env).outcome ≠ Outcome.thrown ∧
    ((∀ s, ∃ v, env.ext.setPrompt s = .ok v) →
     (∃ ac, env.ext.getActiveCharacters = .ok ac) →
     (∃ pc, env.ext.getPOV = .ok pc) →
     (∀ a b c dd e, ∃ v, env.ext.select a b c dd e = .ok v) →
     (∀ dd p a, ∃ s, env.ext.relationship dd p a = .ok s) →
     (∀ a b c dd e f, ∃ s, env.ext.format a b c dd e f = .ok s) →
      (updateInjection env pending).outcome ≠ Outcome.thrown) := by
  refine ⟨?_, ?_⟩
  · by_cases h1 : env.settings.enabled = false
    · simp [retrieveAndInjectContext, h1]
    by_cases h2 : env.chat = []
    · simp [retrieveAndInjectContext, h2]
    cases hd : env.data with
    | none => simp [retrieveAndInjectContext, hd, h1, h2]
    | some d =>
      by_cases hm : d.memories.getD [] = []
      · simp [retrieveAndInjectContext, hd, hm]
      · cases hres : (onDemandTry env d (d.memories.getD [])).result <;>
          simp [retrieveAndInjectContext, hd, h1, h2, hm, hres]
  · intro hset hga0 hpov0 hsel0 hrelat0 hfmt0
    obtain ⟨ac, hga⟩ := hga0
    obtain ⟨⟨pov, g⟩, hp⟩ := hpov0
    have hclear : (clearPrompt env).outcome ≠ Outcome.thrown := by
      rw [clearPrompt_ok env (hset "")]
      exact fun h => Outcome.noConfusion h
    by_cases h1 : env.settings.enabled = false ∨ env.settings.automaticMode = false
    · have hu : updateInjection env pending = clearPrompt env := by
        simp [updateInjection, h1]
      rw [hu]
      exact hclear
    by_cases h2 : env.chat = []
    · have hu : updateInjection env pending = clearPrompt env := by
        simp [updateInjection, h2]
      rw [hu]
      exact hclear
    cases hd : env.data with
    | none =>
      have hu : updateInjection env pending = clearPrompt env := by
        simp [updateInjection, hd, h1, h2]
      rw [hu]
      exact hclear
    | some d =>
      by_cases hm : d.memories.getD [] = []
      · have hu : updateInjection env pending = clearPrompt env := by
          simp [updateInjection, hd, hm]
        rw [hu]
        exact hclear
      by_cases hcand : updateCandidates d.characters d.lastBatchId
          env.chat.length pov (d.memories.getD []) = []
      · have hu : updateInjection env pending = clearPrompt env := by
          simp [updateInjection, hd, h1, h2, hm, hga, hp, hcand]
        rw [hu]
        exact hclear
      obtain ⟨vsel, hvsel⟩ := hsel0
        (updateCandidates d.characters d.lastBatchId env.chat.length pov
          (d.memories.getD []))
        (if pending = "" then recentMessagesText env.chat
         else recentMessagesText env.chat ++ "\n\n[User is about to say]: " ++ pending)
        (if g = true then pov.head?.getD "" else env.name2)
        ac env.settings.maxMemoriesPerRetrieval
      by_cases hrel : vsel.getD [] = []
      · have hu : updateInjection env pending = clearPrompt env := by
          simp [updateInjection, hd, h1, h2, hm, hga, hp, hcand, hvsel, hrel]
        rw [hu]
        exact hclear
      obtain ⟨s, hs⟩ := hrelat0 d (if g = true then pov.head?.getD "" else env.name2) ac
      obtain ⟨fc, hfc⟩ := hfmt0 (vsel.getD []) s
        (emotionOf (lookupChar d.characters
          (if g = true then pov.head?.getD "" else env.name2)))
        (fromMessagesOf (lookupChar d.characters
          (if g = true then pov.head?.getD "" else env.name2)))
        (if g = true then (if g = true then pov.head?.getD "" else env.name2) else "Scene")
        env.settings.tokenBudget
      by_cases hfc0 : fc = ""
      · simp [updateInjection, hd, h1, h2, hm, hga, hp, hcand, hvsel, hrel,
          hs, hfc, hfc0]
      · obtain ⟨v, hv⟩ := hset fc
        simp [updateInjection, hd, h1, h2, hm, hga, hp, hcand, hvsel, hrel,
          hs, hfc, hfc0, hv]

/-- Witness for C8 (amended): both fixture entry points end without an
uncaught exception. -/
theorem entrypoints_no_uncaught_witness :
    (retrieveAndInjectContext envBase).outcome ≠ Outcome.thrown ∧
    (updateInjection envBase "").outcome ≠ Outcome.thrown :=
  ⟨(entrypoints_no_uncaught envBase "").1,
   (entrypoints_no_uncaught envBase "").2 (fun _ => ⟨true, rfl⟩) ⟨_, rfl⟩
     ⟨_, rfl⟩ (fun _ _ _ _ _ => ⟨_, rfl⟩) (fun _ _ _ => ⟨_, rfl⟩)
     (fun _ _ _ _ _ _ => ⟨_, rfl⟩)⟩

end OpenVault
